import Mathlib

/-!
Shallow embedding of the Web3 Voting API (`src/main.py`, `src/schemas.py`):
a nonce-based signed-voting protocol over a document store.

Modelling decisions:
* The MongoDB persistence collaborator (module `database`, imported by
  `main.py` but not itself part of the protocol sources) is modelled from
  the spec's persistence-collaborator contract: per-collection insert
  (`create_document` appends, in insertion order), `find_one` is
  `List.find?` over insertion order, `update_many` is a conditional `map`,
  `update_one` updates the first matching document.  No uniqueness index
  is installed on any collection, matching the sources, which never
  declare one.
* Signature recovery (`eth_account.Account.recover_message`) is an
  external cryptographic primitive; it enters as a function parameter
  `recover : String → String → Except String String`, where `.error e`
  models the recovery call raising an exception with message `e`.
* The random value produced by `generate_nonce` (`secrets.token_hex(16)`)
  is passed in as an explicit argument.
* The `updated_at` timestamps written by the nonce updates are wall-clock
  values and are elided; every other stored field is carried.
-/

namespace Voting

/-- Document of the `nonce` collection (`schemas.py`, class `Nonce`), with
its Mongo `_id` modelled as a `Nat`. -/
structure NonceRec where
  id : Nat
  address : String
  nonce : String
  used : Bool
deriving DecidableEq

/-- Document of the `vote` collection (`schemas.py`, class `Vote`). -/
structure VoteRec where
  project_id : String
  address : String
  signature : String
  nonce : String
deriving DecidableEq

/-- Document of the `project` collection (`schemas.py`, class `Project`). -/
structure ProjectRec where
  name : String
  description : Option String
  website : Option String
  image : Option String
  chain : Option String
deriving DecidableEq

/-- The document store: the three collections touched by `main.py`, in
insertion order, plus the next fresh `_id` for nonce documents. -/
structure DB where
  nonces : List NonceRec
  votes : List VoteRec
  projects : List ProjectRec
  nextId : Nat
deriving DecidableEq

/-- An HTTP error response, `fastapi.HTTPException(status_code, detail)`. -/
structure HError where
  status : Nat
  detail : String
deriving DecidableEq

/-- Request body of `POST /api/vote` (`main.py`, class `VoteCreate`). -/
structure VoteCreate where
  project_id : String
  address : String
  signature : String
  nonce : String
deriving DecidableEq

/-- JSON response `{status, message}` returned by `cast_vote`. -/
structure VoteResp where
  status : String
  message : String
deriving DecidableEq

/-- JSON response `{address, nonce}` returned by `create_nonce`. -/
structure NonceResp where
  address : String
  nonce : String
deriving DecidableEq

/-- Python's `str.lower()`, modelled characterwise (addresses are ASCII
hex strings, on which `Char.toLower` agrees with Python). -/
def pyLower (s : String) : String :=
  ⟨s.data.map Char.toLower⟩

/-- Line 93 of `main.py`: `update_many({"address": addr, "used": False},
{"$set": {"used": True, ...}})` on the nonce collection. -/
def invalidateNonces (addr : String) (ns : List NonceRec) : List NonceRec :=
  ns.map fun n =>
    if n.address == addr && n.used == false then { n with used := true } else n

/-- Endpoint `POST /api/nonce` (`create_nonce`, lines 86-97 of `main.py`):
reject an empty address with a 400, otherwise lowercase the address, mark
every previously unused nonce of that address used, and insert the freshly
generated value `val` as an unused nonce document. -/
def create_nonce (address : String) (val : String) (db : DB) :
    DB × Except HError NonceResp :=
  if address = "" then
    (db, .error ⟨400, "Address required"⟩)
  else
    let addr := pyLower address
    ({ db with
        nonces := invalidateNonces addr db.nonces ++ [⟨db.nextId, addr, val, false⟩],
        nextId := db.nextId + 1 },
     .ok ⟨addr, val⟩)

/-- Endpoint `POST /api/projects` (`create_project`): append the project
document to the `project` collection. -/
def create_project (payload : ProjectRec) (db : DB) : DB :=
  { db with projects := db.projects ++ [payload] }

/-- A write issued by `cast_vote` against the store, in program order. -/
inductive DBOp where
  | insertVote (v : VoteRec)
  | consumeNonce (id : Nat)
deriving DecidableEq

/-- Line 156 of `main.py`: `update_one({"_id": id}, {"$set": {"used": True,
...}})` — set `used` on the first document carrying the given `_id`. -/
def setUsedFirst (id : Nat) : List NonceRec → List NonceRec
  | [] => []
  | n :: rest =>
    if n.id == id then { n with used := true } :: rest
    else n :: setUsedFirst id rest

/-- Apply one store write. -/
def applyOp (db : DB) : DBOp → DB
  | .insertVote v => { db with votes := db.votes ++ [v] }
  | .consumeNonce id => { db with nonces := setUsedFirst id db.nonces }

/-- Apply a list of store writes in order. -/
def applyOps (db : DB) (ops : List DBOp) : DB :=
  ops.foldl applyOp db

/-- Line 127 of `main.py`: the nonce lookup
`find_one({"address": addr, "nonce": payload.nonce, "used": False})`. -/
def findNonceDoc (p : VoteCreate) (db : DB) : Option NonceRec :=
  db.nonces.find? fun n =>
    n.address == pyLower p.address && n.nonce == p.nonce && n.used == false

/-- Line 143 of `main.py`: the duplicate-vote lookup
`find_one({"project_id": payload.project_id, "address": addr})`. -/
def findVoteDoc (p : VoteCreate) (db : DB) : Option VoteRec :=
  db.votes.find? fun v =>
    v.project_id == p.project_id && v.address == pyLower p.address

/-- Line 133 of `main.py`: the canonical signed message
`VOTE:{project_id}:{nonce}`, built from the submitted payload fields. -/
def voteMessage (p : VoteCreate) : String :=
  "VOTE:" ++ p.project_id ++ ":" ++ p.nonce

/-- Lines 148-153 of `main.py`: the vote document inserted on a fresh
vote, storing the lowercased address. -/
def voteDocOf (p : VoteCreate) : VoteRec :=
  ⟨p.project_id, pyLower p.address, p.signature, p.nonce⟩

/-- Endpoint `POST /api/vote` (`cast_vote`, lines 123-158 of `main.py`),
returning the ordered list of store writes it performs together with its
HTTP outcome: nonce lookup, signature recovery over the canonical message,
duplicate-vote check, then (fresh-vote path only) vote insert followed by
nonce consumption. -/
def cast_vote_ops (recover : String → String → Except String String)
    (p : VoteCreate) (db : DB) : List DBOp × Except HError VoteResp :=
  let addr := pyLower p.address
  match findNonceDoc p db with
  | none => ([], .error ⟨400, "Invalid or used nonce"⟩)
  | some nonce_doc =>
    match recover (voteMessage p) p.signature with
    | .error e => ([], .error ⟨400, "Invalid signature: " ++ e.take 60⟩)
    | .ok recovered =>
      if pyLower recovered != addr then
        ([], .error ⟨401, "Signature verification failed"⟩)
      else
        match findVoteDoc p db with
        | some _ => ([], .ok ⟨"ok", "Vote already recorded"⟩)
        | none =>
          ([.insertVote (voteDocOf p), .consumeNonce nonce_doc.id],
           .ok ⟨"ok", "Vote recorded"⟩)

/-- Endpoint `POST /api/vote` as a state transformer: the store after the
request and the HTTP outcome (an uncaught `HTTPException` leaves the store
exactly as the already-applied writes left it). -/
def cast_vote (recover : String → String → Except String String)
    (p : VoteCreate) (db : DB) : DB × Except HError VoteResp :=
  (applyOps db (cast_vote_ops recover p db).1, (cast_vote_ops recover p db).2)

/-- Number of vote documents for a (project, address) pair. -/
def countVotes (db : DB) (pid a : String) : Nat :=
  (db.votes.filter fun v => v.project_id == pid && v.address == a).length

/-- Nonce documents of address `a` whose `used` flag equals `u`. -/
def noncesWith (db : DB) (a : String) (u : Bool) : List NonceRec :=
  db.nonces.filter fun n => n.address == a && n.used == u

/-- Sequential `create_nonce` calls for one address, `vals` being the
successive values produced by `generate_nonce`. -/
def issueSeq (address : String) (vals : List String) (db : DB) : DB :=
  vals.foldl (fun d v => (create_nonce address v d).1) db

/-- Two interleaved `cast_vote` requests: both requests run their read
phase (nonce lookup, signature recovery, duplicate check) against the same
store snapshot `db`, then their write phases are applied in turn — a
schedule the store permits, since `cast_vote` runs no transaction and the
`vote` collection has no uniqueness index. -/
def raceVotes (recover : String → String → Except String String)
    (p1 p2 : VoteCreate) (db : DB) : DB :=
  applyOps (applyOps db (cast_vote_ops recover p1 db).1) (cast_vote_ops recover p2 db).1

/-- The truncated malformed-signature detail can never collide with the
invalid-nonce detail, whatever the underlying library message was. -/
theorem invalid_sig_detail_ne (s : String) :
    "Invalid signature: " ++ s ≠ "Invalid or used nonce" := by
  intro h
  have hd : "Invalid signature: ".data ++ s.data = "Invalid or used nonce".data :=
    congrArg String.data h
  have h19 := congrArg (List.take 19) hd
  rw [List.take_append_of_le_length (by decide)] at h19
  exact absurd h19 (by decide)

/-- A failed `find_one` means the filter matches no document at all. -/
theorem filter_eq_nil_of_find?_eq_none {α : Type} {p : α → Bool} {l : List α}
    (h : l.find? p = none) : l.filter p = [] :=
  List.filter_eq_nil_iff.mpr (List.find?_eq_none.mp h)

/-- Reduction of `cast_vote_ops` on the missing/used-nonce branch. -/
theorem cvo_nonce_none (recover : String → String → Except String String)
    (p : VoteCreate) (db : DB) (h : findNonceDoc p db = none) :
    cast_vote_ops recover p db = ([], .error ⟨400, "Invalid or used nonce"⟩) := by
  simp [cast_vote_ops, h]

/-- Reduction of `cast_vote_ops` when signature recovery raises. -/
theorem cvo_sig_error (recover : String → String → Except String String)
    (p : VoteCreate) (db : DB) (nd : NonceRec) (e : String)
    (h1 : findNonceDoc p db = some nd)
    (h2 : recover (voteMessage p) p.signature = .error e) :
    cast_vote_ops recover p db = ([], .error ⟨400, "Invalid signature: " ++ e.take 60⟩) := by
  simp [cast_vote_ops, h1, h2]

/-- Reduction of `cast_vote_ops` when the recovered address mismatches. -/
theorem cvo_sig_mismatch (recover : String → String → Except String String)
    (p : VoteCreate) (db : DB) (nd : NonceRec) (r : String)
    (h1 : findNonceDoc p db = some nd)
    (h2 : recover (voteMessage p) p.signature = .ok r)
    (h3 : pyLower r ≠ pyLower p.address) :
    cast_vote_ops recover p db = ([], .error ⟨401, "Signature verification failed"⟩) := by
  simp [cast_vote_ops, h1, h2, bne_iff_ne, h3]

/-- Reduction of `cast_vote_ops` on the duplicate-vote branch. -/
theorem cvo_duplicate (recover : String → String → Except String String)
    (p : VoteCreate) (db : DB) (nd : NonceRec) (r : String) (v : VoteRec)
    (h1 : findNonceDoc p db = some nd)
    (h2 : recover (voteMessage p) p.signature = .ok r)
    (h3 : pyLower r = pyLower p.address)
    (h4 : findVoteDoc p db = some v) :
    cast_vote_ops recover p db = ([], .ok ⟨"ok", "Vote already recorded"⟩) := by
  simp [cast_vote_ops, h1, h2, h3, h4]

/-- Reduction of `cast_vote_ops` on the fresh-vote branch. -/
theorem cvo_fresh (recover : String → String → Except String String)
    (p : VoteCreate) (db : DB) (nd : NonceRec) (r : String)
    (h1 : findNonceDoc p db = some nd)
    (h2 : recover (voteMessage p) p.signature = .ok r)
    (h3 : pyLower r = pyLower p.address)
    (h4 : findVoteDoc p db = none) :
    cast_vote_ops recover p db =
      ([.insertVote (voteDocOf p), .consumeNonce nd.id], .ok ⟨"ok", "Vote recorded"⟩) := by
  simp [cast_vote_ops, h1, h2, h3, h4]

/-- Decomposition of the `_id`-targeted `update_one` around the targeted
document, assuming the store's ids are distinct. -/
theorem setUsedFirst_split {l : List NonceRec} {nd : NonceRec}
    (hnodup : (l.map NonceRec.id).Nodup) (hmem : nd ∈ l) :
    ∃ l1 l2, l = l1 ++ nd :: l2 ∧
      setUsedFirst nd.id l = l1 ++ { nd with used := true } :: l2 ∧
      nd.id ∉ (l1 ++ l2).map NonceRec.id := by
  induction l with
  | nil => cases hmem
  | cons a t ih =>
    rw [List.map_cons, List.nodup_cons] at hnodup
    rcases List.mem_cons.mp hmem with rfl | hmem'
    · exact ⟨[], t, rfl, by simp [setUsedFirst], by simpa using hnodup.1⟩
    · have hne : (a.id == nd.id) = false := by
        refine beq_eq_false_iff_ne.mpr fun hEq => ?_
        exact hnodup.1 (hEq ▸ List.mem_map_of_mem NonceRec.id hmem')
      obtain ⟨l1, l2, hl, hset, hnotin⟩ := ih hnodup.2 hmem'
      refine ⟨a :: l1, l2, by simp [hl], ?_, ?_⟩
      · simp [setUsedFirst, hne, hset]
      · intro hin
        rw [List.cons_append, List.map_cons, List.mem_cons] at hin
        rcases hin with h | h
        · exact beq_eq_false_iff_ne.mp hne h.symm
        · exact hnotin h

/-- After the bulk invalidation, no nonce of the address is still unused. -/
theorem invalidateNonces_unused (addr : String) (ns : List NonceRec) :
    (invalidateNonces addr ns).filter (fun n => n.address == addr && n.used == false) = [] := by
  refine List.filter_eq_nil_iff.mpr fun n hn => ?_
  rcases List.mem_map.mp hn with ⟨m, hm, rfl⟩
  by_cases h : m.address = addr
  · cases hu : m.used <;> simp [h, hu]
  · simp [h]

/-- The bulk invalidation turns every unused nonce of the address into a
used one and keeps the used ones. -/
theorem invalidateNonces_used_count (addr : String) (ns : List NonceRec) :
    ((invalidateNonces addr ns).filter (fun n => n.address == addr && n.used == true)).length
      = ((ns.filter (fun n => n.address == addr && n.used == true)).length
         + (ns.filter (fun n => n.address == addr && n.used == false)).length) := by
  induction ns with
  | nil => rfl
  | cons a t ih =>
    by_cases ha : a.address = addr <;> cases hu : a.used <;>
      simp [invalidateNonces, List.filter_cons, ha, hu] at ih ⊢ <;> omega

/-- The bulk invalidation leaves documents of other addresses untouched. -/
theorem invalidateNonces_other (addr : String) (ns : List NonceRec) :
    (invalidateNonces addr ns).filter (fun n => !(n.address == addr))
      = ns.filter (fun n => !(n.address == addr)) := by
  induction ns with
  | nil => rfl
  | cons a t ih =>
    by_cases ha : a.address = addr <;> cases hu : a.used <;>
      simp [invalidateNonces, List.filter_cons, ha, hu] at ih ⊢ <;> simpa using ih

/-- The HTTP outcome of `cast_vote` is the outcome computed by
`cast_vote_ops`. -/
theorem cast_vote_snd (recover : String → String → Except String String)
    (p : VoteCreate) (db : DB) :
    (cast_vote recover p db).2 = (cast_vote_ops recover p db).2 := rfl

/-- C8: the issue-nonce operation fails with a 400 "Address required"
error when the address is empty, and otherwise answers with the lowercased
address together with the newly generated nonce value, the persisted nonce
document storing the lowercased address. -/
theorem create_nonce_contract (a v : String) (db : DB) :
    (a = "" → create_nonce a v db = (db, .error ⟨400, "Address required"⟩)) ∧
    (a ≠ "" →
      (create_nonce a v db).2 = .ok ⟨pyLower a, v⟩ ∧
      (create_nonce a v db).1.nonces
        = invalidateNonces (pyLower a) db.nonces ++ [⟨db.nextId, pyLower a, v, false⟩]) := by
  constructor
  · intro h
    simp [create_nonce, h]
  · intro h
    simp [create_nonce, h]

/-- Witness: `create_nonce` evaluated on an empty and on a mixed-case
address. -/
theorem create_nonce_contract_w :
    create_nonce "" "aaaa" ⟨[], [], [], 0⟩
      = (⟨[], [], [], 0⟩, .error ⟨400, "Address required"⟩) ∧
    (create_nonce "0xAbC" "aaaa" ⟨[], [], [], 0⟩).2 = .ok ⟨"0xabc", "aaaa"⟩ := by
  refine ⟨(create_nonce_contract "" "aaaa" ⟨[], [], [], 0⟩).1 rfl, ?_⟩
  have h := ((create_nonce_contract "0xAbC" "aaaa" ⟨[], [], [], 0⟩).2 (by decide)).1
  have e : pyLower "0xAbC" = "0xabc" := by decide
  rw [e] at h
  exact h

/-- C10: issuing a nonce for an address touches only nonce documents whose
address equals the lowercased input: the vote and project collections and
the nonce documents of every other address are unchanged. -/
theorem create_nonce_frame (a v : String) (db : DB) :
    (create_nonce a v db).1.votes = db.votes ∧
    (create_nonce a v db).1.projects = db.projects ∧
    (create_nonce a v db).1.nonces.filter (fun n => !(n.address == pyLower a))
      = db.nonces.filter (fun n => !(n.address == pyLower a)) := by
  by_cases h : a = ""
  · simp [create_nonce, h]
  · refine ⟨by simp [create_nonce, h], by simp [create_nonce, h], ?_⟩
    have hsplit : (create_nonce a v db).1.nonces
        = invalidateNonces (pyLower a) db.nonces ++ [⟨db.nextId, pyLower a, v, false⟩] := by
      simp [create_nonce, h]
    rw [hsplit, List.filter_append, invalidateNonces_other]
    simp

/-- C2: cast_vote answers 400 "Invalid or used nonce" exactly when no
nonce document matches the lowercased submitted address, the exact
submitted nonce value, and used = false — so a nonce consumed by an
earlier successful vote is rejected this way however valid the signature
is. -/
theorem invalid_nonce_iff (recover : String → String → Except String String)
    (p : VoteCreate) (db : DB) :
    (cast_vote recover p db).2 = .error ⟨400, "Invalid or used nonce"⟩ ↔
      findNonceDoc p db = none := by
  rw [cast_vote_snd]
  constructor
  · intro h
    rcases hfind : findNonceDoc p db with _ | nd
    · rfl
    · exfalso
      rcases hrec : recover (voteMessage p) p.signature with e | r
      · rw [cvo_sig_error recover p db nd e hfind hrec] at h
        simp only [Except.error.injEq, HError.mk.injEq] at h
        exact invalid_sig_detail_ne (e.take 60) h.2
      · by_cases hm : pyLower r = pyLower p.address
        · rcases hvote : findVoteDoc p db with _ | v
          · rw [cvo_fresh recover p db nd r hfind hrec hm hvote] at h
            simp at h
          · rw [cvo_duplicate recover p db nd r v hfind hrec hm hvote] at h
            simp at h
        · rw [cvo_sig_mismatch recover p db nd r hfind hrec hm] at h
          simp at h
  · intro h
    rw [cvo_nonce_none recover p db h]

/-- Witness: a vote submitted against an empty nonce store is rejected
with the invalid-nonce error. -/
theorem invalid_nonce_iff_w :
    (cast_vote (fun _ _ => .ok "0xabc") ⟨"p1", "0xabc", "sig", "n1"⟩ ⟨[], [], [], 0⟩).2
      = .error ⟨400, "Invalid or used nonce"⟩ :=
  (invalid_nonce_iff (fun _ _ => .ok "0xabc") ⟨"p1", "0xabc", "sig", "n1"⟩
    ⟨[], [], [], 0⟩).mpr rfl

/-- C4: with a valid nonce on file, cast_vote checks the signature against
the canonical message VOTE:project_id:nonce built from the submitted
payload fields; a raising recovery yields the 400 malformed-signature
error and a recovered address differing from the claimed one under
lowercasing yields the 401 mismatch error, the store unchanged in both
cases. -/
theorem signature_check_contract (recover : String → String → Except String String)
    (p : VoteCreate) (db : DB) (nd : NonceRec)
    (h1 : findNonceDoc p db = some nd) :
    voteMessage p = "VOTE:" ++ p.project_id ++ ":" ++ p.nonce ∧
    (∀ e, recover (voteMessage p) p.signature = .error e →
      cast_vote recover p db = (db, .error ⟨400, "Invalid signature: " ++ e.take 60⟩)) ∧
    (∀ r, recover (voteMessage p) p.signature = .ok r →
      pyLower r ≠ pyLower p.address →
      cast_vote recover p db = (db, .error ⟨401, "Signature verification failed"⟩)) := by
  refine ⟨rfl, ?_, ?_⟩
  · intro e he
    simp [cast_vote, cvo_sig_error recover p db nd e h1 he, applyOps]
  · intro r hr hm
    simp [cast_vote, cvo_sig_mismatch recover p db nd r h1 hr hm, applyOps]

/-- Witness: a recovered address differing from the claimed one is turned
away with the 401 error and an untouched store. -/
theorem signature_check_contract_w :
    findNonceDoc ⟨"p1", "0xAbC", "sig", "n1"⟩ ⟨[⟨0, "0xabc", "n1", false⟩], [], [], 1⟩
      = some ⟨0, "0xabc", "n1", false⟩ ∧
    cast_vote (fun _ _ => .ok "0xdef") ⟨"p1", "0xAbC", "sig", "n1"⟩
        ⟨[⟨0, "0xabc", "n1", false⟩], [], [], 1⟩
      = (⟨[⟨0, "0xabc", "n1", false⟩], [], [], 1⟩,
         .error ⟨401, "Signature verification failed"⟩) := by
  refine ⟨by decide, ?_⟩
  exact (signature_check_contract (fun _ _ => .ok "0xdef") ⟨"p1", "0xAbC", "sig", "n1"⟩
      ⟨[⟨0, "0xabc", "n1", false⟩], [], [], 1⟩ ⟨0, "0xabc", "n1", false⟩
      (by decide)).2.2 "0xdef" rfl (by decide)

/-- C5: a duplicate vote with a valid nonce and signature is acknowledged
with "Vote already recorded" while the store is returned unchanged — in
particular the looked-up nonce document is still present and unused. -/
theorem duplicate_vote_frame (recover : String → String → Except String String)
    (p : VoteCreate) (db : DB) (nd : NonceRec) (r : String) (v : VoteRec)
    (h1 : findNonceDoc p db = some nd)
    (h2 : recover (voteMessage p) p.signature = .ok r)
    (h3 : pyLower r = pyLower p.address)
    (h4 : findVoteDoc p db = some v) :
    cast_vote recover p db = (db, .ok ⟨"ok", "Vote already recorded"⟩) ∧
    nd ∈ db.nonces ∧ nd.used = false := by
  refine ⟨?_, List.mem_of_find?_eq_some h1, ?_⟩
  · simp [cast_vote, cvo_duplicate recover p db nd r v h1 h2 h3 h4, applyOps]
  · have hp := List.find?_some h1
    simp at hp
    exact hp.2

/-- Witness: a second vote for an already-voted pair is acknowledged and
the store, nonce document included, is untouched. -/
theorem duplicate_vote_frame_w :
    cast_vote (fun _ _ => .ok "0xabc") ⟨"p1", "0xabc", "sig2", "n2"⟩
        ⟨[⟨1, "0xabc", "n2", false⟩], [⟨"p1", "0xabc", "sig1", "n1"⟩], [], 2⟩
      = (⟨[⟨1, "0xabc", "n2", false⟩], [⟨"p1", "0xabc", "sig1", "n1"⟩], [], 2⟩,
         .ok ⟨"ok", "Vote already recorded"⟩) ∧
    (⟨1, "0xabc", "n2", false⟩ : NonceRec) ∈
      ([⟨1, "0xabc", "n2", false⟩] : List NonceRec) ∧
    (⟨1, "0xabc", "n2", false⟩ : NonceRec).used = false :=
  duplicate_vote_frame (fun _ _ => .ok "0xabc") ⟨"p1", "0xabc", "sig2", "n2"⟩
    ⟨[⟨1, "0xabc", "n2", false⟩], [⟨"p1", "0xabc", "sig1", "n1"⟩], [], 2⟩
    ⟨1, "0xabc", "n2", false⟩ "0xabc" ⟨"p1", "0xabc", "sig1", "n1"⟩
    rfl rfl rfl rfl

/-- C7: every rejection of cast_vote leaves the store exactly as it was —
no vote document created, no nonce document touched; when a nonce had been
looked up it is still stored unused. -/
theorem rejection_frame (recover : String → String → Except String String)
    (p : VoteCreate) (db : DB) (e : HError)
    (h : (cast_vote recover p db).2 = .error e) :
    (cast_vote recover p db).1 = db ∧
    (∀ nd, findNonceDoc p db = some nd →
      nd ∈ (cast_vote recover p db).1.nonces ∧ nd.used = false) := by
  rw [cast_vote_snd] at h
  have hframe : (cast_vote recover p db).1 = db := by
    rcases hfind : findNonceDoc p db with _ | nd
    · simp [cast_vote, cvo_nonce_none recover p db hfind, applyOps]
    · rcases hrec : recover (voteMessage p) p.signature with er | r
      · simp [cast_vote, cvo_sig_error recover p db nd er hfind hrec, applyOps]
      · by_cases hm : pyLower r = pyLower p.address
        · rcases hvote : findVoteDoc p db with _ | v
          · exfalso
            rw [cvo_fresh recover p db nd r hfind hrec hm hvote] at h
            simp at h
          · exfalso
            rw [cvo_duplicate recover p db nd r v hfind hrec hm hvote] at h
            simp at h
        · simp [cast_vote, cvo_sig_mismatch recover p db nd r hfind hrec hm, applyOps]
  refine ⟨hframe, fun nd hnd => ⟨?_, ?_⟩⟩
  · rw [hframe]
    exact List.mem_of_find?_eq_some hnd
  · have hp := List.find?_some hnd
    simp at hp
    exact hp.2

/-- Witness: the invalid-nonce rejection leaves an empty store empty. -/
theorem rejection_frame_w :
    (cast_vote (fun _ _ => .ok "0xabc") ⟨"p1", "0xabc", "sig", "n1"⟩ ⟨[], [], [], 0⟩).1
      = ⟨[], [], [], 0⟩ :=
  (rejection_frame (fun _ _ => .ok "0xabc") ⟨"p1", "0xabc", "sig", "n1"⟩ ⟨[], [], [], 0⟩
    ⟨400, "Invalid or used nonce"⟩ rfl).1

/-- One issue call leaves exactly one unused nonce document for the
address, and turns every previously unused one into a used one. -/
theorem create_nonce_counts (a : String) (ha : a ≠ "") (v : String) (d : DB) :
    (noncesWith (create_nonce a v d).1 (pyLower a) false).length = 1 ∧
    (noncesWith (create_nonce a v d).1 (pyLower a) true).length
      = (noncesWith d (pyLower a) true).length
        + (noncesWith d (pyLower a) false).length := by
  have hn : (create_nonce a v d).1.nonces
      = invalidateNonces (pyLower a) d.nonces ++ [⟨d.nextId, pyLower a, v, false⟩] := by
    simp [create_nonce, ha]
  constructor
  · show ((create_nonce a v d).1.nonces.filter _).length = 1
    rw [hn, List.filter_append, invalidateNonces_unused]
    simp
  · show ((create_nonce a v d).1.nonces.filter _).length = _
    rw [hn, List.filter_append, List.length_append, invalidateNonces_used_count]
    simp [noncesWith]

/-- Invariant preserved by a run of issue calls: one unused nonce stays
outstanding and every consumed one accumulates into the used count. -/
theorem issueSeq_inv (a : String) (ha : a ≠ "") (vals : List String) :
    ∀ d : DB, (noncesWith d (pyLower a) false).length = 1 →
      (noncesWith (issueSeq a vals d) (pyLower a) false).length = 1 ∧
      (noncesWith (issueSeq a vals d) (pyLower a) true).length
        = (noncesWith d (pyLower a) true).length + vals.length := by
  induction vals with
  | nil =>
    intro d hd
    exact ⟨hd, by simp [issueSeq]⟩
  | cons v rest ih =>
    intro d hd
    have hstep := create_nonce_counts a ha v d
    have hseq : issueSeq a (v :: rest) d = issueSeq a rest (create_nonce a v d).1 := rfl
    rw [hseq]
    obtain ⟨h1, h2⟩ := ih (create_nonce a v d).1 hstep.1
    refine ⟨h1, ?_⟩
    rw [h2, hstep.2, hd, List.length_cons]
    omega

/-- C3: starting from a store holding no nonce document for the address,
N sequential issue calls leave exactly one unused nonce document for the
lowercased address and N-1 used ones; each call first marks every
currently-unused nonce of the address used and then appends the newly
generated one as unused. -/
theorem issue_seq_nonce_counts (a : String) (vals : List String) (db : DB)
    (ha : a ≠ "") (hvals : vals ≠ [])
    (h0 : db.nonces.filter (fun n => n.address == pyLower a) = []) :
    (noncesWith (issueSeq a vals db) (pyLower a) false).length = 1 ∧
    (noncesWith (issueSeq a vals db) (pyLower a) true).length = vals.length - 1 ∧
    (∀ (d : DB) (w : String),
      (create_nonce a w d).1.nonces
        = invalidateNonces (pyLower a) d.nonces ++ [⟨d.nextId, pyLower a, w, false⟩]) := by
  have hz : ∀ u : Bool, (noncesWith db (pyLower a) u).length = 0 := by
    intro u
    have hempty : noncesWith db (pyLower a) u = [] := by
      refine List.filter_eq_nil_iff.mpr fun n hn => ?_
      have hp := List.filter_eq_nil_iff.mp h0 n hn
      simp at hp ⊢
      intro hadr
      exact absurd hadr hp
    simp [hempty]
  rcases vals with _ | ⟨v, rest⟩
  · exact absurd rfl hvals
  · have hstep := create_nonce_counts a ha v db
    have hinv := issueSeq_inv a ha rest (create_nonce a v db).1 hstep.1
    have hseq : issueSeq a (v :: rest) db = issueSeq a rest (create_nonce a v db).1 := rfl
    refine ⟨by rw [hseq]; exact hinv.1, ?_, fun d w => by simp [create_nonce, ha]⟩
    rw [hseq, hinv.2, hstep.2, hz true, hz false, List.length_cons]
    omega

/-- Witness: three issue calls for one address leave one unused and two
used nonce documents. -/
theorem issue_seq_nonce_counts_w :
    (noncesWith (issueSeq "0xAbC" ["n1", "n2", "n3"] ⟨[], [], [], 0⟩)
      (pyLower "0xAbC") false).length = 1 ∧
    (noncesWith (issueSeq "0xAbC" ["n1", "n2", "n3"] ⟨[], [], [], 0⟩)
      (pyLower "0xAbC") true).length = (["n1", "n2", "n3"] : List String).length - 1 :=
  ⟨(issue_seq_nonce_counts "0xAbC" ["n1", "n2", "n3"] ⟨[], [], [], 0⟩
      (by decide) (by decide) rfl).1,
   (issue_seq_nonce_counts "0xAbC" ["n1", "n2", "n3"] ⟨[], [], [], 0⟩
      (by decide) (by decide) rfl).2.1⟩

/-- C6: on the fresh-vote path the vote insert strictly precedes the nonce
consumption — the write trace is the vote insert followed by the nonce
update, the intermediate store after the first write already holds the
vote while every nonce document is untouched, and the final store holds
the vote with the consumed nonce marked used (assuming distinct document
ids in the store). -/
theorem vote_before_consume (recover : String → String → Except String String)
    (p : VoteCreate) (db : DB) (nd : NonceRec) (r : String)
    (hids : (db.nonces.map NonceRec.id).Nodup)
    (h1 : findNonceDoc p db = some nd)
    (h2 : recover (voteMessage p) p.signature = .ok r)
    (h3 : pyLower r = pyLower p.address)
    (h4 : findVoteDoc p db = none) :
    cast_vote_ops recover p db
      = ([.insertVote (voteDocOf p), .consumeNonce nd.id], .ok ⟨"ok", "Vote recorded"⟩) ∧
    (applyOp db (.insertVote (voteDocOf p))).votes = db.votes ++ [voteDocOf p] ∧
    (applyOp db (.insertVote (voteDocOf p))).nonces = db.nonces ∧
    voteDocOf p ∈ (cast_vote recover p db).1.votes ∧
    { nd with used := true } ∈ (cast_vote recover p db).1.nonces ∧
    nd ∉ (cast_vote recover p db).1.nonces := by
  have hops := cvo_fresh recover p db nd r h1 h2 h3 h4
  have hmem := List.mem_of_find?_eq_some h1
  obtain ⟨l1, l2, hl, hset, hnot⟩ := setUsedFirst_split hids hmem
  have hused : nd.used = false := by
    have hp := List.find?_some h1
    simp at hp
    exact hp.2
  have hfinal : (cast_vote recover p db).1
      = { db with votes := db.votes ++ [voteDocOf p],
                  nonces := setUsedFirst nd.id db.nonces } := by
    simp [cast_vote, hops, applyOps, applyOp]
  refine ⟨hops, rfl, rfl, ?_, ?_, ?_⟩
  · rw [hfinal]
    simp
  · rw [hfinal]
    show { nd with used := true } ∈ setUsedFirst nd.id db.nonces
    rw [hset]
    simp
  · rw [hfinal]
    show nd ∉ setUsedFirst nd.id db.nonces
    rw [hset]
    intro hin
    rcases List.mem_append.mp hin with hin1 | hin2
    · exact hnot (List.mem_map_of_mem NonceRec.id (List.mem_append.mpr (Or.inl hin1)))
    · rcases List.mem_cons.mp hin2 with heq | hin3
      · have hbad : nd.used = true := congrArg NonceRec.used heq
        rw [hused] at hbad
        cases hbad
      · exact hnot (List.mem_map_of_mem NonceRec.id (List.mem_append.mpr (Or.inr hin3)))

/-- Witness: the fresh-vote write trace at a concrete store, and the
consumed nonce marked used afterwards. -/
theorem vote_before_consume_w :
    cast_vote_ops (fun _ _ => .ok "0xAbC") ⟨"p1", "0xabc", "sig1", "n1"⟩
        ⟨[⟨0, "0xabc", "n1", false⟩], [], [], 1⟩
      = ([.insertVote (voteDocOf ⟨"p1", "0xabc", "sig1", "n1"⟩), .consumeNonce 0],
         .ok ⟨"ok", "Vote recorded"⟩) ∧
    ({ id := 0, address := "0xabc", nonce := "n1", used := true } : NonceRec) ∈
      (cast_vote (fun _ _ => .ok "0xAbC") ⟨"p1", "0xabc", "sig1", "n1"⟩
        ⟨[⟨0, "0xabc", "n1", false⟩], [], [], 1⟩).1.nonces := by
  have h := vote_before_consume (fun _ _ => .ok "0xAbC") ⟨"p1", "0xabc", "sig1", "n1"⟩
      ⟨[⟨0, "0xabc", "n1", false⟩], [], [], 1⟩ ⟨0, "0xabc", "n1", false⟩ "0xAbC"
      (by decide) rfl rfl (by decide) rfl
  exact ⟨h.1, h.2.2.2.2.1⟩

/-- C1: a correctly signed vote for a fresh (project, lowercased address)
pair inserts exactly one vote document and answers "Vote recorded"; any
second correctly signed submission for the same pair, carrying a fresh
valid nonce, inserts nothing, leaves the store unchanged, and answers
"Vote already recorded" — never an error. -/
theorem vote_twice_single_record (recover1 : String → String → Except String String)
    (p1 : VoteCreate) (db : DB) (nd : NonceRec) (r1 : String)
    (h1 : findNonceDoc p1 db = some nd)
    (h2 : recover1 (voteMessage p1) p1.signature = .ok r1)
    (h3 : pyLower r1 = pyLower p1.address)
    (h4 : findVoteDoc p1 db = none) :
    (cast_vote recover1 p1 db).2 = .ok ⟨"ok", "Vote recorded"⟩ ∧
    countVotes (cast_vote recover1 p1 db).1 p1.project_id (pyLower p1.address) = 1 ∧
    (∀ (recover2 : String → String → Except String String) (p2 : VoteCreate)
        (nd2 : NonceRec) (r2 : String),
      p2.project_id = p1.project_id →
      pyLower p2.address = pyLower p1.address →
      findNonceDoc p2 (cast_vote recover1 p1 db).1 = some nd2 →
      recover2 (voteMessage p2) p2.signature = .ok r2 →
      pyLower r2 = pyLower p2.address →
      cast_vote recover2 p2 (cast_vote recover1 p1 db).1
          = ((cast_vote recover1 p1 db).1, .ok ⟨"ok", "Vote already recorded"⟩) ∧
      countVotes (cast_vote recover2 p2 (cast_vote recover1 p1 db).1).1
          p1.project_id (pyLower p1.address) = 1) := by
  have hops := cvo_fresh recover1 p1 db nd r1 h1 h2 h3 h4
  have hfst : (cast_vote recover1 p1 db).1
      = { db with votes := db.votes ++ [voteDocOf p1],
                  nonces := setUsedFirst nd.id db.nonces } := by
    simp [cast_vote, hops, applyOps, applyOp]
  have hresp : (cast_vote recover1 p1 db).2 = .ok ⟨"ok", "Vote recorded"⟩ := by
    simp [cast_vote, hops]
  have hzero : db.votes.filter
      (fun v => v.project_id == p1.project_id && v.address == pyLower p1.address) = [] :=
    filter_eq_nil_of_find?_eq_none h4
  have hcount : countVotes (cast_vote recover1 p1 db).1
      p1.project_id (pyLower p1.address) = 1 := by
    rw [hfst]
    show ((db.votes ++ [voteDocOf p1]).filter _).length = 1
    rw [List.filter_append, hzero]
    simp [voteDocOf]
  refine ⟨hresp, hcount, ?_⟩
  intro recover2 p2 nd2 r2 hpid haddr hn2 hr2 hm2
  have hfind2 : findVoteDoc p2 (cast_vote recover1 p1 db).1 = some (voteDocOf p1) := by
    rw [hfst]
    show (db.votes ++ [voteDocOf p1]).find?
      (fun v => v.project_id == p2.project_id && v.address == pyLower p2.address) = _
    have hq : (fun v : VoteRec => v.project_id == p2.project_id && v.address == pyLower p2.address)
        = (fun v : VoteRec => v.project_id == p1.project_id && v.address == pyLower p1.address) := by
      funext v
      rw [hpid, haddr]
    have h4u : db.votes.find?
        (fun v => v.project_id == p1.project_id && v.address == pyLower p1.address) = none := h4
    rw [hq, List.find?_append, h4u]
    simp [voteDocOf]
  have hdup := cvo_duplicate recover2 p2 (cast_vote recover1 p1 db).1 nd2 r2 (voteDocOf p1)
      hn2 hr2 hm2 hfind2
  have hkeep : cast_vote recover2 p2 (cast_vote recover1 p1 db).1
      = ((cast_vote recover1 p1 db).1, .ok ⟨"ok", "Vote already recorded"⟩) := by
    have hpair : cast_vote recover2 p2 (cast_vote recover1 p1 db).1
        = (applyOps (cast_vote recover1 p1 db).1
            (cast_vote_ops recover2 p2 (cast_vote recover1 p1 db).1).1,
           (cast_vote_ops recover2 p2 (cast_vote recover1 p1 db).1).2) := rfl
    rw [hpair, hdup]
    rfl
  refine ⟨hkeep, ?_⟩
  have hproj : (cast_vote recover2 p2 (cast_vote recover1 p1 db).1).1
      = (cast_vote recover1 p1 db).1 := by rw [hkeep]
  rw [hproj]
  exact hcount

/-- Witness: the recorded-then-acknowledged scenario at a concrete store,
the second submission using a fresh nonce and a mixed-case address. -/
theorem vote_twice_single_record_w :
    (cast_vote (fun _ _ => .ok "0xabc") ⟨"p1", "0xabc", "sig1", "n1"⟩
        ⟨[⟨0, "0xabc", "n1", false⟩, ⟨1, "0xabc", "n2", false⟩], [], [], 2⟩).2
      = .ok ⟨"ok", "Vote recorded"⟩ ∧
    cast_vote (fun _ _ => .ok "0xabc") ⟨"p1", "0xAbC", "sig2", "n2"⟩
        (cast_vote (fun _ _ => .ok "0xabc") ⟨"p1", "0xabc", "sig1", "n1"⟩
          ⟨[⟨0, "0xabc", "n1", false⟩, ⟨1, "0xabc", "n2", false⟩], [], [], 2⟩).1
      = ((cast_vote (fun _ _ => .ok "0xabc") ⟨"p1", "0xabc", "sig1", "n1"⟩
          ⟨[⟨0, "0xabc", "n1", false⟩, ⟨1, "0xabc", "n2", false⟩], [], [], 2⟩).1,
         .ok ⟨"ok", "Vote already recorded"⟩) := by
  have h := vote_twice_single_record (fun _ _ => .ok "0xabc")
      ⟨"p1", "0xabc", "sig1", "n1"⟩
      ⟨[⟨0, "0xabc", "n1", false⟩, ⟨1, "0xabc", "n2", false⟩], [], [], 2⟩
      ⟨0, "0xabc", "n1", false⟩ "0xabc" rfl rfl rfl rfl
  exact ⟨h.1, (h.2.2 (fun _ _ => .ok "0xabc") ⟨"p1", "0xAbC", "sig2", "n2"⟩
      ⟨1, "0xabc", "n2", false⟩ "0xabc" rfl (by decide) (by decide) rfl (by decide)).1⟩

/-- C9 evidence: the vote collection carries no uniqueness constraint and
`cast_vote` wraps its insert in no conflict handling, so two interleaved
correctly-signed submissions for the same (project, address) pair — each
holding its own valid nonce, both duplicate checks reading the store
before either write lands — leave two vote documents for the pair. -/
theorem race_two_rows :
    countVotes
      (raceVotes (fun _ _ => .ok "0xabc")
        ⟨"p1", "0xabc", "sig1", "n1"⟩ ⟨"p1", "0xabc", "sig2", "n2"⟩
        ⟨[⟨0, "0xabc", "n1", false⟩, ⟨1, "0xabc", "n2", false⟩], [], [], 2⟩)
      "p1" "0xabc" = 2 := by
  decide

end Voting
